import Mathlib

/-!
Verification of the chat channel synchronization core of the
ingress-intel-total-conversion repository (src/core/code/chat.js).

The JavaScript source is shallowly embedded: plain JS objects become Lean
structures, JS object property maps become association lists (in insertion
order, as JS preserves string-key insertion order), JS arrays become Lean
lists, JS numbers holding millisecond timestamps become Int, and the
ambient mutable state (chat._oldBBox, chat._channels, jQuery .data flags,
chat._requestRunning) becomes an explicit ChatState record threaded through
the functions.  External collaborators that live outside this repository
(the Leaflet map, jQuery DOM rendering helpers, window.teamStringToId,
Date#toLocaleDateString, the idle detector) are supplied through an Env
record of plain functions/values.
-/

namespace IitcChat

/-- Payload object of a markup entity (the `ent[1]` object of a chat markup
entry).  The chat core reads the `plain` text and the `team` string of these
objects; `team` is absent (`none`) on plain TEXT entities until
`transformMessage` copies a faction team onto one. -/
structure EntPayload where
  plain : String
  team : Option String
deriving DecidableEq

/-- A markup entity `ent`: `ent[0]` is the tag (TEXT, PLAYER, SENDER,
FACTION, ...), `ent[1]` the payload object. -/
abbrev MarkupEnt := String × EntPayload

/-- The `plext` object of a raw server record. -/
structure Plext where
  categories : Nat
  team : String
  plextType : String
  markup : List MarkupEnt
deriving DecidableEq

/-- One raw record of a server response: the JS array
`[guid, timestampMs, {plext: ...}]`. -/
structure RawMsg where
  guid : String
  time : Int
  plext : Plext
deriving DecidableEq

/-- A server response body holding the `result` array
(`newData` in chat.js). -/
structure NewData where
  result : List RawMsg
deriving DecidableEq

/-- Player info produced by chat.parseMsgData (`player` object). -/
structure PlayerInfo where
  name : String
  team : Int
deriving DecidableEq

/-- The object returned by chat.parseMsgData. -/
structure Parsed where
  guid : String
  time : Int
  public : Bool
  secure : Bool
  alert : Bool
  msgToPlayer : Bool
  type : String
  narrowcast : Bool
  auto : Bool
  team : Int
  player : PlayerInfo
  markup : List MarkupEnt
deriving DecidableEq

/-- The per-GUID record stored by chat.writeDataToHash:
`[timestamp, autogenerated, HTML message, nick, parsed data]`. -/
structure StoredMsg where
  time : Int
  auto : Bool
  html : String
  nick : String
  parsed : Parsed
deriving DecidableEq

/-- Bounding box of the Leaflet map (L.LatLngBounds): south-west and
north-east corners.  Coordinates are modelled as rationals. -/
structure BBox where
  south : Rat
  west : Rat
  north : Rat
  east : Rat
deriving DecidableEq

/-- External collaborators of the chat core, everything reached through
`window`, jQuery or Leaflet and living outside this repository:
`window.teamStringToId` (argument may be a string or undefined),
`chat.renderMsgRow`-style HTML production (which depends on the DOM helpers
`$`, window.TEAM_TO_CSS, window.PLAYER and the unixTime formatters),
`new Date(t).toLocaleDateString()`, the current clamped map bounds
`window.clampLatLngBounds(map.getBounds())`, and `window.isIdle()`. -/
structure Env where
  teamStringToId : Option String → Int
  renderMsgRow : Parsed → String
  toLocaleDateString : Int → String
  bounds : BBox
  isIdle : Bool

/-- JS `str.replace(/: $/, '')`: cut a single trailing ": ". -/
def stripTrailingColonSpace (s : String) : String :=
  if s.endsWith ": " then s.dropRight 2 else s

/-- chat.parseMsgData (chat.js lines 389-438): decode the category bitmask,
derive automation/narrowcast flags and scan the markup list for a SENDER or
PLAYER entity to populate the player info. -/
def parseMsgData (env : Env) (data : RawMsg) : Parsed :=
  let categories := data.plext.categories
  let isPublic := categories &&& 1 == 1
  let isSecure := categories &&& 2 == 2
  let msgAlert := categories &&& 4 == 4
  let msgToPlayer := msgAlert && (isPublic || isSecure)
  let time := data.time
  let team := env.teamStringToId (some data.plext.team)
  let auto := data.plext.plextType != "PLAYER_GENERATED"
  let systemNarrowcast := data.plext.plextType == "SYSTEM_NARROWCAST"
  let markup := data.plext.markup
  let player := markup.foldl (fun player ent =>
    match ent.1 with
    | "SENDER" => { player with name := stripTrailingColonSpace ent.2.plain }
    | "PLAYER" => { name := ent.2.plain, team := env.teamStringToId ent.2.team }
    | _ => player) ({ name := "", team := team } : PlayerInfo)
  { guid := data.guid
    time := time
    public := isPublic
    secure := isSecure
    alert := msgAlert
    msgToPlayer := msgToPlayer
    type := data.plext.plextType
    narrowcast := systemNarrowcast
    auto := auto
    team := team
    player := player
    markup := markup }

/-- The per-channel storage object `chat._channels[id]` (a `storageHash`):
message records keyed by GUID (insertion-ordered, as JS objects are), the
GUID order list, and the oldest/newest watermarks.  The GUID watermark
fields are `none` when deleted/not yet assigned. -/
structure ChannelState where
  data : List (String × StoredMsg)
  guids : List String
  oldestTimestamp : Int
  oldestGUID : Option String
  newestTimestamp : Int
  newestGUID : Option String
deriving DecidableEq

/-- The state chat.initChannelData (chat.js lines 932-941) leaves a channel
in: empty data, empty guids, both timestamps -1, both GUIDs deleted. -/
def freshChannelState : ChannelState :=
  { data := [], guids := [], oldestTimestamp := -1, oldestGUID := none,
    newestTimestamp := -1, newestGUID := none }

/-- chat.updateOldNewHash (chat.js lines 351-380): track oldest and newest
timestamp/GUID watermarks from the positional first/last records of the
batch, swapping the two when the batch is in ascending order. -/
def updateOldNewHash (newData : NewData) (storageHash : ChannelState)
    (isOlderMsgs isAscendingOrder : Bool) : ChannelState :=
  match newData.result with
  | [] => storageHash
  | r :: rs =>
    let firstRec := r
    let lastRec := (r :: rs).getLast (List.cons_ne_nil r rs)
    let first := if isAscendingOrder then lastRec else firstRec
    let last := if isAscendingOrder then firstRec else lastRec
    let s1 :=
      if storageHash.oldestTimestamp = -1 ∨ storageHash.oldestTimestamp ≥ last.time then
        if isOlderMsgs ∨ storageHash.oldestTimestamp ≠ last.time then
          { storageHash with oldestTimestamp := last.time, oldestGUID := some last.guid }
        else storageHash
      else storageHash
    if s1.newestTimestamp = -1 ∨ s1.newestTimestamp ≤ first.time then
      if ¬isOlderMsgs ∨ s1.newestTimestamp ≠ first.time then
        { s1 with newestTimestamp := first.time, newestGUID := some first.guid }
      else s1
    else s1

/-- The stored record built for an accepted message in chat.writeDataToHash
line 461: `[time, auto, chat.renderMsgRow(parsedData), player.name,
parsedData]`. -/
def mkStored (env : Env) (parsedData : Parsed) : StoredMsg :=
  { time := parsedData.time
    auto := parsedData.auto
    html := env.renderMsgRow parsedData
    nick := parsedData.player.name
    parsed := parsedData }

/-- One iteration of the forEach body of chat.writeDataToHash (chat.js lines
452-467): skip records whose GUID is already stored, otherwise parse, store
the record, and push (ascending) or unshift (descending) the GUID. -/
def writeStep (env : Env) (isAscendingOrder : Bool)
    (storageHash : ChannelState) (json : RawMsg) : ChannelState :=
  if storageHash.data.any (fun p => p.fst = json.guid) then storageHash
  else
    let parsedData := parseMsgData env json
    let st := { storageHash with
      data := storageHash.data ++ [(parsedData.guid, mkStored env parsedData)] }
    if isAscendingOrder then { st with guids := st.guids ++ [parsedData.guid] }
    else { st with guids := parsedData.guid :: st.guids }

/-- chat.writeDataToHash (chat.js lines 449-468): update the watermarks,
then merge every non-duplicate record of the batch into the store. -/
def writeDataToHash (env : Env) (newData : NewData) (storageHash : ChannelState)
    (isOlderMsgs isAscendingOrder : Bool) : ChannelState :=
  let st := updateOldNewHash newData storageHash isOlderMsgs isAscendingOrder
  newData.result.foldl (writeStep env isAscendingOrder) st

/-- One merge call: a batch together with the isOlderMsgs/isAscendingOrder
flags it is merged under. -/
structure MergeInput where
  newData : NewData
  isOlderMsgs : Bool
  isAscendingOrder : Bool

/-- Apply a sequence of chat.writeDataToHash merges to a channel state. -/
def applyMerges (env : Env) (ms : List MergeInput) (s : ChannelState) : ChannelState :=
  ms.foldl (fun s m => writeDataToHash env m.newData s m.isOlderMsgs m.isAscendingOrder) s

lemma updateOldNewHash_eq (nd : NewData) (s : ChannelState) (o a : Bool)
    (r : RawMsg) (rs : List RawMsg) (h : nd.result = r :: rs) :
    updateOldNewHash nd s o a =
      (let lastRec := (r :: rs).getLast (List.cons_ne_nil r rs)
      let first := if a then lastRec else r
      let last := if a then r else lastRec
      { s with
        oldestTimestamp :=
          if (s.oldestTimestamp = -1 ∨ s.oldestTimestamp ≥ last.time) ∧ (o = true ∨ s.oldestTimestamp ≠ last.time)
          then last.time else s.oldestTimestamp
        oldestGUID :=
          if (s.oldestTimestamp = -1 ∨ s.oldestTimestamp ≥ last.time) ∧ (o = true ∨ s.oldestTimestamp ≠ last.time)
          then some last.guid else s.oldestGUID
        newestTimestamp :=
          if (s.newestTimestamp = -1 ∨ s.newestTimestamp ≤ first.time) ∧ (¬o = true ∨ s.newestTimestamp ≠ first.time)
          then first.time else s.newestTimestamp
        newestGUID :=
          if (s.newestTimestamp = -1 ∨ s.newestTimestamp ≤ first.time) ∧ (¬o = true ∨ s.newestTimestamp ≠ first.time)
          then some first.guid else s.newestGUID }) := by
  obtain ⟨d, g, ot, og, nt, ng⟩ := s
  unfold updateOldNewHash
  rw [h]
  dsimp only
  split_ifs <;> simp_all

lemma updateOldNewHash_data (nd : NewData) (s : ChannelState) (o a : Bool) :
    (updateOldNewHash nd s o a).data = s.data ∧ (updateOldNewHash nd s o a).guids = s.guids := by
  obtain ⟨d, g, ot, og, nt, ng⟩ := s
  unfold updateOldNewHash
  match h : nd.result with
  | [] => exact ⟨rfl, rfl⟩
  | r :: rs =>
    dsimp only
    split_ifs <;> simp_all

lemma parseMsgData_guid (env : Env) (j : RawMsg) : (parseMsgData env j).guid = j.guid := rfl

lemma writeStep_wm (env : Env) (a : Bool) (s : ChannelState) (j : RawMsg) :
    (writeStep env a s j).oldestTimestamp = s.oldestTimestamp ∧
    (writeStep env a s j).oldestGUID = s.oldestGUID ∧
    (writeStep env a s j).newestTimestamp = s.newestTimestamp ∧
    (writeStep env a s j).newestGUID = s.newestGUID := by
  unfold writeStep
  split_ifs <;> simp_all

lemma foldl_writeStep_wm (env : Env) (a : Bool) (batch : List RawMsg) (s : ChannelState) :
    (batch.foldl (writeStep env a) s).oldestTimestamp = s.oldestTimestamp ∧
    (batch.foldl (writeStep env a) s).oldestGUID = s.oldestGUID ∧
    (batch.foldl (writeStep env a) s).newestTimestamp = s.newestTimestamp ∧
    (batch.foldl (writeStep env a) s).newestGUID = s.newestGUID := by
  induction batch generalizing s with
  | nil => exact ⟨rfl, rfl, rfl, rfl⟩
  | cons j batch ih =>
    simp only [List.foldl_cons]
    obtain ⟨h1, h2, h3, h4⟩ := ih (writeStep env a s j)
    obtain ⟨g1, g2, g3, g4⟩ := writeStep_wm env a s j
    exact ⟨h1.trans g1, h2.trans g2, h3.trans g3, h4.trans g4⟩

lemma writeStep_mem_keys (env : Env) (a : Bool) (s : ChannelState) (j : RawMsg) :
    (writeStep env a s j).data.any (fun p => p.fst = j.guid) = true := by
  unfold writeStep
  split_ifs with h
  · exact h
  all_goals simp [List.any_append, parseMsgData_guid]

lemma writeStep_keys_mono (env : Env) (a : Bool) (s : ChannelState) (j : RawMsg) (g : String)
    (h : s.data.any (fun p => p.fst = g) = true) :
    (writeStep env a s j).data.any (fun p => p.fst = g) = true := by
  unfold writeStep
  split_ifs <;> simp_all [List.any_append]

lemma foldl_writeStep_keys_mono (env : Env) (a : Bool) (batch : List RawMsg) (s : ChannelState)
    (g : String) (h : s.data.any (fun p => p.fst = g) = true) :
    (batch.foldl (writeStep env a) s).data.any (fun p => p.fst = g) = true := by
  induction batch generalizing s with
  | nil => exact h
  | cons j batch ih =>
    simp only [List.foldl_cons]
    exact ih _ (writeStep_keys_mono env a s j g h)

lemma foldl_writeStep_mem (env : Env) (a : Bool) (batch : List RawMsg) (s : ChannelState)
    (j : RawMsg) (hj : j ∈ batch) :
    (batch.foldl (writeStep env a) s).data.any (fun p => p.fst = j.guid) = true := by
  induction batch generalizing s with
  | nil => cases hj
  | cons j2 batch ih =>
    simp only [List.foldl_cons]
    rcases List.mem_cons.mp hj with h | h
    · subst h
      exact foldl_writeStep_keys_mono env a batch _ _ (writeStep_mem_keys env a s j)
    · exact ih _ h

lemma writeStep_of_mem (env : Env) (a : Bool) (s : ChannelState) (j : RawMsg)
    (h : s.data.any (fun p => p.fst = j.guid) = true) :
    writeStep env a s j = s := by
  unfold writeStep
  simp [h]

lemma foldl_writeStep_of_mem (env : Env) (a : Bool) (batch : List RawMsg) (s : ChannelState)
    (h : ∀ j ∈ batch, s.data.any (fun p => p.fst = j.guid) = true) :
    batch.foldl (writeStep env a) s = s := by
  induction batch with
  | nil => rfl
  | cons j batch ih =>
    simp only [List.foldl_cons]
    rw [writeStep_of_mem env a s j (h j (List.mem_cons_self j batch))]
    exact ih (fun j2 hj2 => h j2 (List.mem_cons_of_mem j hj2))

lemma updateOldNewHash_wm_congr (nd : NewData) (s t : ChannelState) (o a : Bool)
    (h1 : t.oldestTimestamp = s.oldestTimestamp) (h2 : t.oldestGUID = s.oldestGUID)
    (h3 : t.newestTimestamp = s.newestTimestamp) (h4 : t.newestGUID = s.newestGUID) :
    (updateOldNewHash nd t o a).oldestTimestamp = (updateOldNewHash nd s o a).oldestTimestamp ∧
    (updateOldNewHash nd t o a).oldestGUID = (updateOldNewHash nd s o a).oldestGUID ∧
    (updateOldNewHash nd t o a).newestTimestamp = (updateOldNewHash nd s o a).newestTimestamp ∧
    (updateOldNewHash nd t o a).newestGUID = (updateOldNewHash nd s o a).newestGUID := by
  match h : nd.result with
  | [] =>
    unfold updateOldNewHash
    rw [h]
    exact ⟨h1, h2, h3, h4⟩
  | r :: rs =>
    rw [updateOldNewHash_eq nd s o a r rs h, updateOldNewHash_eq nd t o a r rs h]
    rw [h1, h2, h3, h4]
    exact ⟨rfl, rfl, rfl, rfl⟩

lemma updateOldNewHash_idem_wm (nd : NewData) (s : ChannelState) (o a : Bool) :
    (updateOldNewHash nd (updateOldNewHash nd s o a) o a).oldestTimestamp = (updateOldNewHash nd s o a).oldestTimestamp ∧
    (updateOldNewHash nd (updateOldNewHash nd s o a) o a).oldestGUID = (updateOldNewHash nd s o a).oldestGUID ∧
    (updateOldNewHash nd (updateOldNewHash nd s o a) o a).newestTimestamp = (updateOldNewHash nd s o a).newestTimestamp ∧
    (updateOldNewHash nd (updateOldNewHash nd s o a) o a).newestGUID = (updateOldNewHash nd s o a).newestGUID := by
  match h : nd.result with
  | [] =>
    unfold updateOldNewHash
    rw [h]
    exact ⟨rfl, rfl, rfl, rfl⟩
  | r :: rs =>
    rw [updateOldNewHash_eq nd (updateOldNewHash nd s o a) o a r rs h]
    rw [updateOldNewHash_eq nd s o a r rs h]
    obtain ⟨d, g, ot, og, nt, ng⟩ := s
    dsimp only
    split_ifs <;> simp_all

lemma channelState_ext {s t : ChannelState} (h1 : s.data = t.data) (h2 : s.guids = t.guids)
    (h3 : s.oldestTimestamp = t.oldestTimestamp) (h4 : s.oldestGUID = t.oldestGUID)
    (h5 : s.newestTimestamp = t.newestTimestamp) (h6 : s.newestGUID = t.newestGUID) : s = t := by
  cases s
  cases t
  simp_all

lemma writeDataToHash_idem (env : Env) (nd : NewData) (s : ChannelState) (o a : Bool) :
    writeDataToHash env nd (writeDataToHash env nd s o a) o a = writeDataToHash env nd s o a := by
  have hW : writeDataToHash env nd s o a = nd.result.foldl (writeStep env a) (updateOldNewHash nd s o a) := rfl
  have hwmW := foldl_writeStep_wm env a nd.result (updateOldNewHash nd s o a)
  have hdg := updateOldNewHash_data nd (writeDataToHash env nd s o a) o a
  have hcongr := updateOldNewHash_wm_congr nd (updateOldNewHash nd s o a)
    (writeDataToHash env nd s o a) o a
    (by rw [hW]; exact hwmW.1) (by rw [hW]; exact hwmW.2.1)
    (by rw [hW]; exact hwmW.2.2.1) (by rw [hW]; exact hwmW.2.2.2)
  have hidem := updateOldNewHash_idem_wm nd s o a
  have hUW : updateOldNewHash nd (writeDataToHash env nd s o a) o a = writeDataToHash env nd s o a := by
    apply channelState_ext hdg.1 hdg.2
    · rw [hcongr.1, hidem.1, hW]
      exact hwmW.1.symm
    · rw [hcongr.2.1, hidem.2.1, hW]
      exact hwmW.2.1.symm
    · rw [hcongr.2.2.1, hidem.2.2.1, hW]
      exact hwmW.2.2.1.symm
    · rw [hcongr.2.2.2, hidem.2.2.2, hW]
      exact hwmW.2.2.2.symm
  show nd.result.foldl (writeStep env a) (updateOldNewHash nd (writeDataToHash env nd s o a) o a) = _
  rw [hUW]
  apply foldl_writeStep_of_mem
  intro j hj
  rw [hW]
  exact foldl_writeStep_mem env a nd.result _ j hj

lemma writeDataToHash_dup_frame (env : Env) (nd : NewData) (s : ChannelState) (o a : Bool)
    (h : ∀ j ∈ nd.result, s.data.any (fun p => p.fst = j.guid) = true) :
    (writeDataToHash env nd s o a).data = s.data ∧ (writeDataToHash env nd s o a).guids = s.guids := by
  have hd := updateOldNewHash_data nd s o a
  have hfold : nd.result.foldl (writeStep env a) (updateOldNewHash nd s o a) = updateOldNewHash nd s o a :=
    foldl_writeStep_of_mem env a nd.result _ (fun j hj => by rw [hd.1]; exact h j hj)
  constructor
  · show (nd.result.foldl (writeStep env a) (updateOldNewHash nd s o a)).data = s.data
    rw [hfold]
    exact hd.1
  · show (nd.result.foldl (writeStep env a) (updateOldNewHash nd s o a)).guids = s.guids
    rw [hfold]
    exact hd.2

def wmInv (s : ChannelState) : Prop :=
  (∀ p ∈ s.data, s.oldestTimestamp ≤ p.2.time ∧ p.2.time ≤ s.newestTimestamp) ∧
  (s.oldestTimestamp = -1 → s.data = []) ∧
  (s.newestTimestamp = -1 → s.data = [])

abbrev batchSorted (isAscendingOrder : Bool) (l : List RawMsg) : Prop :=
  if isAscendingOrder then l.Pairwise (fun x y => x.time ≤ y.time)
  else l.Pairwise (fun x y => y.time ≤ x.time)

abbrev batchContract (m : MergeInput) : Prop :=
  (∀ r ∈ m.newData.result, r.time ≠ -1) ∧ batchSorted m.isAscendingOrder m.newData.result

lemma pairwise_rel_head {α : Type _} {R : α → α → Prop} (hRefl : ∀ x, R x x) (r : α) (rs : List α)
    (h : (r :: rs).Pairwise R) : ∀ x ∈ r :: rs, R r x := by
  intro x hx
  rcases List.mem_cons.mp hx with rfl | hx2
  · exact hRefl x
  · exact (List.pairwise_cons.mp h).1 x hx2

lemma pairwise_rel_getLast {α : Type _} {R : α → α → Prop}
    (hTrans : ∀ x y z : α, R x y → R y z → R x z) (hRefl : ∀ x, R x x) :
    ∀ (r : α) (rs : List α), (r :: rs).Pairwise R →
      ∀ x ∈ r :: rs, R x ((r :: rs).getLast (List.cons_ne_nil r rs)) := by
  intro r rs
  induction rs generalizing r with
  | nil =>
    intro h x hx
    simp only [List.mem_singleton] at hx
    subst hx
    simpa using hRefl x
  | cons r2 rs ih =>
    intro h x hx
    rw [List.getLast_cons (List.cons_ne_nil r2 rs)]
    have h2 := (List.pairwise_cons.mp h).2
    rcases List.mem_cons.mp hx with rfl | hx2
    · have hr2 : R x r2 := (List.pairwise_cons.mp h).1 r2 (List.mem_cons_self r2 rs)
      exact hTrans _ _ _ hr2 (ih r2 h2 r2 (List.mem_cons_self r2 rs))
    · exact ih r2 h2 x hx2

lemma parseMsgData_time (env : Env) (j : RawMsg) : (parseMsgData env j).time = j.time := rfl

lemma foldl_writeStep_times (env : Env) (a : Bool) (batch : List RawMsg) (st : ChannelState)
    (P : Int → Prop) (h1 : ∀ p ∈ st.data, P p.2.time) (h2 : ∀ j ∈ batch, P j.time) :
    ∀ p ∈ (batch.foldl (writeStep env a) st).data, P p.2.time := by
  induction batch generalizing st with
  | nil => exact h1
  | cons j batch ih =>
    simp only [List.foldl_cons]
    apply ih
    · intro p hp
      unfold writeStep at hp
      split_ifs at hp with hc
      · exact h1 p hp
      all_goals
        simp only [List.mem_append, List.mem_singleton] at hp
        rcases hp with hp | hp
        · exact h1 p hp
        · subst hp
          exact h2 j (List.mem_cons_self j batch)
    · exact fun j2 hj2 => h2 j2 (List.mem_cons_of_mem j hj2)

lemma writeDataToHash_wmInv_aux (env : Env) (nd : NewData) (s : ChannelState) (o a : Bool)
    (fe le : RawMsg)
    (hUo : (updateOldNewHash nd s o a).oldestTimestamp =
      if (s.oldestTimestamp = -1 ∨ s.oldestTimestamp ≥ le.time) ∧ (o = true ∨ s.oldestTimestamp ≠ le.time)
      then le.time else s.oldestTimestamp)
    (hUn : (updateOldNewHash nd s o a).newestTimestamp =
      if (s.newestTimestamp = -1 ∨ s.newestTimestamp ≤ fe.time) ∧ (¬o = true ∨ s.newestTimestamp ≠ fe.time)
      then fe.time else s.newestTimestamp)
    (hmem : ∀ x ∈ nd.result, le.time ≤ x.time ∧ x.time ≤ fe.time)
    (hle : le.time ≠ -1) (hfe : fe.time ≠ -1)
    (hs : wmInv s) :
    wmInv (writeDataToHash env nd s o a) := by
  obtain ⟨hsB, hsO, hsN⟩ := hs
  have hUdata := updateOldNewHash_data nd s o a
  have hwm := foldl_writeStep_wm env a nd.result (updateOldNewHash nd s o a)
  have hW : writeDataToHash env nd s o a = nd.result.foldl (writeStep env a) (updateOldNewHash nd s o a) := rfl
  have hUo_le : (updateOldNewHash nd s o a).oldestTimestamp ≤ le.time := by
    rw [hUo]
    split_ifs with hc
    · exact le_refl _
    · rcases not_and_or.mp hc with h | h
      · push_neg at h
        omega
      · push_neg at h
        omega
  have hUn_ge : fe.time ≤ (updateOldNewHash nd s o a).newestTimestamp := by
    rw [hUn]
    split_ifs with hc
    · exact le_refl _
    · rcases not_and_or.mp hc with h | h
      · push_neg at h
        omega
      · push_neg at h
        omega
  have hUo_ne : (updateOldNewHash nd s o a).oldestTimestamp ≠ -1 := by
    rw [hUo]
    split_ifs with hc
    · exact hle
    · rcases not_and_or.mp hc with h | h
      · push_neg at h
        exact h.1
      · push_neg at h
        obtain ⟨h1, h2⟩ := h
        omega
  have hUn_ne : (updateOldNewHash nd s o a).newestTimestamp ≠ -1 := by
    rw [hUn]
    split_ifs with hc
    · exact hfe
    · rcases not_and_or.mp hc with h | h
      · push_neg at h
        exact h.1
      · push_neg at h
        obtain ⟨h1, h2⟩ := h
        omega
  have hBound : ∀ p ∈ (writeDataToHash env nd s o a).data,
      (updateOldNewHash nd s o a).oldestTimestamp ≤ p.2.time ∧
      p.2.time ≤ (updateOldNewHash nd s o a).newestTimestamp := by
    rw [hW]
    apply foldl_writeStep_times env a nd.result (updateOldNewHash nd s o a)
      (fun t => (updateOldNewHash nd s o a).oldestTimestamp ≤ t ∧ t ≤ (updateOldNewHash nd s o a).newestTimestamp)
    · intro p hp
      rw [hUdata.1] at hp
      constructor
      · rw [hUo]
        split_ifs with hc
        · rcases hc.1 with h1 | h1
          · rw [hsO h1] at hp
            exact absurd hp (List.not_mem_nil p)
          · exact le_trans h1 (hsB p hp).1
        · exact (hsB p hp).1
      · rw [hUn]
        split_ifs with hc
        · rcases hc.1 with h1 | h1
          · rw [hsN h1] at hp
            exact absurd hp (List.not_mem_nil p)
          · exact le_trans (hsB p hp).2 h1
        · exact (hsB p hp).2
    · intro j hj
      exact ⟨le_trans hUo_le (hmem j hj).1, le_trans (hmem j hj).2 hUn_ge⟩
  refine ⟨?_, ?_, ?_⟩
  · intro p hp
    rw [hW, hwm.1, hwm.2.2.1]
    exact hBound p hp
  · intro h
    rw [hW, hwm.1] at h
    exact absurd h hUo_ne
  · intro h
    rw [hW, hwm.2.2.1] at h
    exact absurd h hUn_ne

lemma writeDataToHash_wmInv (env : Env) (nd : NewData) (s : ChannelState) (o a : Bool)
    (hs : wmInv s) (ht : ∀ x ∈ nd.result, x.time ≠ -1) (hsorted : batchSorted a nd.result) :
    wmInv (writeDataToHash env nd s o a) := by
  match hnd : nd.result with
  | [] =>
    have h1 : updateOldNewHash nd s o a = s := by
      unfold updateOldNewHash
      rw [hnd]
    have heq : writeDataToHash env nd s o a = s := by
      show nd.result.foldl (writeStep env a) (updateOldNewHash nd s o a) = s
      rw [hnd, h1]
      rfl
    rw [heq]
    exact hs
  | r :: rs =>
    have hne : (r :: rs) ≠ [] := List.cons_ne_nil r rs
    unfold batchSorted at hsorted
    rw [hnd] at hsorted
    cases a with
    | true =>
      have hsorted2 : (r :: rs).Pairwise (fun x y => x.time ≤ y.time) := hsorted
      apply writeDataToHash_wmInv_aux env nd s o true ((r :: rs).getLast hne) r
      · rw [updateOldNewHash_eq nd s o true r rs hnd]
        rfl
      · rw [updateOldNewHash_eq nd s o true r rs hnd]
        rfl
      · rw [hnd]
        intro x hx
        refine ⟨?_, ?_⟩
        · exact pairwise_rel_head (R := fun p q => p.time ≤ q.time)
            (fun p => le_refl p.time) r rs hsorted2 x hx
        · exact pairwise_rel_getLast (R := fun p q => p.time ≤ q.time)
            (fun p q t hpq hqt => le_trans hpq hqt)
            (fun p => le_refl p.time) r rs hsorted2 x hx
      · exact ht r (by rw [hnd]; exact List.mem_cons_self r rs)
      · exact ht _ (by rw [hnd]; exact List.getLast_mem hne)
      · exact hs
    | false =>
      have hsorted2 : (r :: rs).Pairwise (fun x y => y.time ≤ x.time) := hsorted
      apply writeDataToHash_wmInv_aux env nd s o false r ((r :: rs).getLast hne)
      · rw [updateOldNewHash_eq nd s o false r rs hnd]
        rfl
      · rw [updateOldNewHash_eq nd s o false r rs hnd]
        rfl
      · rw [hnd]
        intro x hx
        refine ⟨?_, ?_⟩
        · exact pairwise_rel_getLast (R := fun p q => q.time ≤ p.time)
            (fun p q t hpq hqt => le_trans hqt hpq)
            (fun p => le_refl p.time) r rs hsorted2 x hx
        · exact pairwise_rel_head (R := fun p q => q.time ≤ p.time)
            (fun p => le_refl p.time) r rs hsorted2 x hx
      · exact ht _ (by rw [hnd]; exact List.getLast_mem hne)
      · exact ht r (by rw [hnd]; exact List.mem_cons_self r rs)
      · exact hs

lemma wmInv_fresh : wmInv freshChannelState :=
  ⟨fun p hp => absurd hp (List.not_mem_nil p), fun _ => rfl, fun _ => rfl⟩

lemma applyMerges_wmInv (env : Env) (ms : List MergeInput) (s : ChannelState)
    (hs : wmInv s) (hc : ∀ m ∈ ms, batchContract m) : wmInv (applyMerges env ms s) := by
  induction ms generalizing s with
  | nil => exact hs
  | cons m ms ih =>
    have hm := hc m (List.mem_cons_self m ms)
    have hcrest := fun m2 hm2 => hc m2 (List.mem_cons_of_mem m hm2)
    exact ih _ (writeDataToHash_wmInv env m.newData s m.isOlderMsgs m.isAscendingOrder hs hm.1 hm.2) hcrest

def orderIntegrity (s : ChannelState) : Prop :=
  s.guids.Nodup ∧ (s.data.map Prod.fst).Nodup ∧ ∀ g, g ∈ s.guids ↔ g ∈ s.data.map Prod.fst

lemma writeStep_orderIntegrity (env : Env) (a : Bool) (s : ChannelState) (j : RawMsg)
    (hs : orderIntegrity s) : orderIntegrity (writeStep env a s j) := by
  obtain ⟨h1, h2, h3⟩ := hs
  unfold writeStep
  split_ifs with hc
  · exact ⟨h1, h2, h3⟩
  all_goals
    have hnk : (parseMsgData env j).guid ∉ s.data.map Prod.fst := by
      rw [parseMsgData_guid]
      intro hmem
      apply hc
      rw [List.any_eq_true]
      rcases List.mem_map.mp hmem with ⟨p, hp, hpe⟩
      exact ⟨p, hp, by simp [hpe]⟩
    have hng : (parseMsgData env j).guid ∉ s.guids := fun hgg => hnk ((h3 _).mp hgg)
  · refine ⟨?_, ?_, ?_⟩
    · simp only [List.nodup_append, List.nodup_cons, List.nodup_nil, and_true, List.not_mem_nil,
        not_false_iff, List.disjoint_singleton]
      exact ⟨h1, by simpa using hng⟩
    · simp only [List.map_append, List.map_cons, List.map_nil, List.nodup_append,
        List.nodup_cons, List.nodup_nil, and_true, List.disjoint_singleton]
      exact ⟨h2, by simpa using hnk⟩
    · intro g
      simp only [List.mem_append, List.map_append, List.map_cons, List.map_nil,
        List.mem_singleton, h3 g]
  · refine ⟨?_, ?_, ?_⟩
    · simp only [List.nodup_cons]
      exact ⟨hng, h1⟩
    · simp only [List.map_append, List.map_cons, List.map_nil, List.nodup_append,
        List.nodup_cons, List.nodup_nil, and_true, List.disjoint_singleton]
      exact ⟨h2, by simpa using hnk⟩
    · intro g
      simp only [List.mem_cons, List.mem_append, List.map_append, List.map_cons, List.map_nil,
        List.mem_singleton, h3 g]
      tauto

lemma foldl_writeStep_orderIntegrity (env : Env) (a : Bool) (batch : List RawMsg)
    (st : ChannelState) (h : orderIntegrity st) :
    orderIntegrity (batch.foldl (writeStep env a) st) := by
  induction batch generalizing st with
  | nil => exact h
  | cons j batch ih => exact ih _ (writeStep_orderIntegrity env a st j h)

lemma writeDataToHash_orderIntegrity (env : Env) (nd : NewData) (s : ChannelState) (o a : Bool)
    (hs : orderIntegrity s) : orderIntegrity (writeDataToHash env nd s o a) := by
  show orderIntegrity (nd.result.foldl (writeStep env a) (updateOldNewHash nd s o a))
  have hu := updateOldNewHash_data nd s o a
  apply foldl_writeStep_orderIntegrity
  unfold orderIntegrity
  rw [hu.1, hu.2]
  exact hs

lemma orderIntegrity_fresh : orderIntegrity freshChannelState :=
  ⟨List.nodup_nil, List.nodup_nil, fun g => Iff.rfl⟩

lemma applyMerges_orderIntegrity (env : Env) (ms : List MergeInput) (s : ChannelState)
    (hs : orderIntegrity s) : orderIntegrity (applyMerges env ms s) := by
  induction ms generalizing s with
  | nil => exact hs
  | cons m ms ih =>
    exact ih _ (writeDataToHash_orderIntegrity env m.newData s m.isOlderMsgs m.isAscendingOrder hs)

/-- JS runtime value passed as the `channel` argument of chat.genPostData; the source
checks `typeof channel !== 'string'`. -/
inductive JSVal where
  | str (s : String)
  | num (n : Int)
  | boolean (b : Bool)
  | null
  | undef
deriving DecidableEq

/-- Whether a JS value is a string (`typeof v === 'string'`). -/
def JSVal.isString : JSVal → Bool
  | .str _ => true
  | _ => false

/-- JS Math.round: round half toward positive infinity. -/
def jsRound (q : Rat) : Int := Int.floor (q + 1/2)

/-- Leaflet LatLngBounds.pad: extend the box on every side by the given fraction of its
height/width (external Leaflet collaborator, standard semantics). -/
def BBox.padBox (b : BBox) (bufferFrac : Rat) : BBox :=
  let heightBuffer := |b.south - b.north| * bufferFrac
  let widthBuffer := |b.west - b.east| * bufferFrac
  { south := b.south - heightBuffer
    west := b.west - widthBuffer
    north := b.north + heightBuffer
    east := b.east + widthBuffer }

/-- Leaflet LatLngBounds.contains on another bounds: the other box lies within this one
(external Leaflet collaborator, standard semantics). -/
def BBox.containsBox (b other : BBox) : Bool :=
  decide (other.south ≥ b.south) && decide (other.north ≤ b.north) &&
  decide (other.west ≥ b.west) && decide (other.east ≤ b.east)

/-- The padding tolerance constant of chat.genPostData (chat.js line 72). -/
def CHAT_BOUNDINGBOX_SAME_FACTOR : Rat := 1/10

/-- A channel descriptor entry of chat.channels (chat.js lines 884-916): the fields the
verified core reads. -/
structure ChannelDesc where
  id : String
  name : String
  localBounds : Bool
  inputPrompt : Option String
  inputClass : Option String
deriving DecidableEq

/-- The ambient mutable state of the chat module: chat._oldBBox, the chat.channels list,
the per-channel stores chat._channels, the per-channel jQuery needsClearing flags on the
chat containers, chat._requestRunning, and window.failedRequestCount. -/
structure ChatState where
  oldBBox : Option BBox
  channels : List ChannelDesc
  chans : List (String × ChannelState)
  needsClearing : List (String × Bool)
  requestRunning : List (String × Bool)
  failedRequestCount : Nat
deriving DecidableEq

/-- Lookup in a JS-object-like association list (`obj[k]`, undefined when absent). -/
def alGet {α : Type _} (l : List (String × α)) (k : String) : Option α :=
  match l with
  | [] => none
  | p :: rest => if p.fst = k then some p.snd else alGet rest k

/-- Update/insert in a JS-object-like association list (`obj[k] = v`; JS objects keep
insertion order and hold each key once). -/
def alSet {α : Type _} (l : List (String × α)) (k : String) (v : α) : List (String × α) :=
  match l with
  | [] => [(k, v)]
  | p :: rest => if p.fst = k then (k, v) :: rest else p :: alSet rest k v

/-- chat.initChannelData (chat.js lines 932-941): reset a channel store to empty data,
empty guids, watermark timestamps -1, watermark GUIDs deleted (the channel object itself
is preserved, but every field the core reads is reset, so the result is exactly
freshChannelState). -/
def initChannelData (st : ChatState) (channel : ChannelDesc) : ChatState :=
  { st with chans := alSet st.chans channel.id freshChannelState }

/-- The body of the forEach in chat.genPostData lines 80-85: reset every viewport-scoped
(localBounds) channel and flag its container as needing a forced clear. -/
def resetLocalChannel (st : ChatState) (entry : ChannelDesc) : ChatState :=
  if entry.localBounds then
    let st2 := initChannelData st entry
    { st2 with needsClearing := alSet st2.needsClearing entry.id true }
  else st

/-- The viewport change detector of chat.genPostData (chat.js lines 65-88): seed
chat._oldBBox on first use, then compare the current box with the last-synced box by
symmetric containment of the 10%-padded boxes; on change, reset every localBounds
channel, flag it needsClearing, and store the new box. -/
def viewportSync (b : BBox) (st : ChatState) : ChatState :=
  let st0 := if st.oldBBox = none then { st with oldBBox := some b } else st
  match st0.oldBBox with
  | none => st0
  | some oldBBox =>
    if (b.padBox CHAT_BOUNDINGBOX_SAME_FACTOR).containsBox oldBBox &&
       (oldBBox.padBox CHAT_BOUNDINGBOX_SAME_FACTOR).containsBox b then st0
    else
      let st1 := st0.channels.foldl resetLocalChannel st0
      { st1 with oldBBox := some b }

/-- The request parameter object built by chat.genPostData (chat.js lines 92-132).
Optional fields model keys that jQuery $.extend leaves absent (undefined values are
skipped by $.extend, so an unset watermark GUID never produces the key). -/
structure PostData where
  minLatE6 : Int
  minLngE6 : Int
  maxLatE6 : Int
  maxLngE6 : Int
  minTimestampMs : Int
  maxTimestampMs : Int
  tab : String
  plextContinuationGuid : Option String
  ascendingTimestampOrder : Option Bool
deriving DecidableEq

/-- The request-parameter construction of chat.genPostData (chat.js lines 92-132): base
object with the E6-rounded bounding box and -1 timestamps, then the older-messages or
newer-messages extension, with the ascending flag only when an actual minimum timestamp
is known. -/
def buildPostData (b : BBox) (channel : String) (storageHash : ChannelState)
    (getOlderMsgs : Bool) : PostData :=
  let data : PostData :=
    { minLatE6 := jsRound (b.south * 1000000)
      minLngE6 := jsRound (b.west * 1000000)
      maxLatE6 := jsRound (b.north * 1000000)
      maxLngE6 := jsRound (b.east * 1000000)
      minTimestampMs := -1
      maxTimestampMs := -1
      tab := channel
      plextContinuationGuid := none
      ascendingTimestampOrder := none }
  if getOlderMsgs then
    { data with
        maxTimestampMs := storageHash.oldestTimestamp
        plextContinuationGuid := storageHash.oldestGUID }
  else
    let minTs := storageHash.newestTimestamp
    let data2 := { data with
        minTimestampMs := minTs
        plextContinuationGuid := storageHash.newestGUID }
    if minTs > -1 then { data2 with ascendingTimestampOrder := some true } else data2

/-- chat.genPostData (chat.js lines 60-133): throw unless the channel argument is a
string, run the viewport change detector, look up the channel store (a TypeError is
raised on the watermark read when the channel is unknown), and build the request
parameters.  The unused second source parameter `_storageHash` (shadowed by the local
lookup on line 90) is omitted.  Errors carry the JS exception; the returned state is the
ambient state as mutated up to the throw. -/
def genPostData (env : Env) (st : ChatState) (channel : JSVal) (getOlderMsgs : Bool) :
    ChatState × Except String PostData :=
  match channel with
  | .str c =>
    let b := env.bounds
    let st1 := viewportSync b st
    match alGet st1.chans c with
    | none => (st1, .error "TypeError: cannot read properties of undefined")
    | some storageHash => (st1, .ok (buildPostData b c storageHash getOlderMsgs))
  | _ => (st, .error "API changed: isFaction flag now a channel string - all, faction, alerts")

/-- A concrete environment used to evaluate the embedding on concrete inputs. -/
def envX : Env :=
  { teamStringToId := fun _ => 0
    renderMsgRow := fun p => String.append "row:" p.guid
    toLocaleDateString := fun t => toString t
    bounds := { south := 0, west := 0, north := 1, east := 1 }
    isIdle := false }

/-- A minimal raw server record with the given GUID and timestamp. -/
def rawX (g : String) (t : Int) : RawMsg :=
  { guid := g, time := t, plext := { categories := 0, team := "", plextType := "", markup := [] } }

/-- A channel state holding one message g0 at timestamp 10 with both watermarks 10/g0. -/
def sDup : ChannelState :=
  { data := [("g0", mkStored envX (parseMsgData envX (rawX "g0" 10)))]
    guids := ["g0"]
    oldestTimestamp := 10
    oldestGUID := some "g0"
    newestTimestamp := 10
    newestGUID := some "g0" }

/-- A batch whose single GUID g0 is already present in sDup (at a different timestamp). -/
def ndDup : NewData := ⟨[rawX "g0" 5]⟩

/-- An ascending two-message batch. -/
def ndW : NewData := ⟨[rawX "g1" 100, rawX "g2" 200]⟩

/-- A two-merge sequence: an ascending newer-messages batch, then a descending
older-messages batch. -/
def msW : List MergeInput :=
  [ { newData := ndW, isOlderMsgs := false, isAscendingOrder := true },
    { newData := ⟨[rawX "g0" 50]⟩, isOlderMsgs := true, isAscendingOrder := false } ]

/-- C1, counterexample to the claim as stated: a batch all of whose GUIDs are already
present in the store does not leave the ChannelState unchanged.  With the single stored
message g0 at timestamp 10 and both watermarks 10/g0, merging the batch [(g0, 5)] (GUID
g0 already present; isOlderMsgs = false, isAscendingOrder = false) recomputes
oldestTimestamp to 5, because chat.updateOldNewHash runs before the per-message GUID
dedup check and never consults the stored GUIDs. -/
theorem claim_C1_counterexample :
    (∀ j ∈ ndDup.result, sDup.data.any (fun p => p.fst = j.guid) = true) ∧
    writeDataToHash envX ndDup sDup false false ≠ sDup := by
  constructor
  · decide
  · decide

/-- C1 (amended): merging the same batch twice into a ChannelState with the same
isOlderMsgs/isAscendingOrder flags yields exactly the state of merging it once, for every
ChannelState and every batch; and a batch whose GUIDs are all already present leaves the
messages map and the order list unchanged (the watermark fields, however, are still
recomputed from the batch by chat.updateOldNewHash). -/
theorem claim_C1_idempotent_merge :
    (∀ (env : Env) (nd : NewData) (s : ChannelState) (o a : Bool),
      writeDataToHash env nd (writeDataToHash env nd s o a) o a = writeDataToHash env nd s o a) ∧
    (∀ (env : Env) (nd : NewData) (s : ChannelState) (o a : Bool),
      (∀ j ∈ nd.result, s.data.any (fun p => p.fst = j.guid) = true) →
      (writeDataToHash env nd s o a).data = s.data ∧
      (writeDataToHash env nd s o a).guids = s.guids) :=
  ⟨writeDataToHash_idem, writeDataToHash_dup_frame⟩

/-- C1 witness: the amended claim evaluated at concrete inputs: re-merging the ascending
batch ndW is the identity, and merging the all-duplicates batch ndDup into sDup leaves
the messages map untouched. -/
theorem claim_C1_witness :
    (writeDataToHash envX ndW (writeDataToHash envX ndW freshChannelState false true) false true
      = writeDataToHash envX ndW freshChannelState false true) ∧
    (writeDataToHash envX ndDup sDup false false).data = sDup.data :=
  ⟨claim_C1_idempotent_merge.1 envX ndW freshChannelState false true,
   (claim_C1_idempotent_merge.2 envX ndDup sDup false false (by decide)).1⟩

/-- C2: starting from a freshly initialized ChannelState, after any sequence of
writeDataToHash merges with any flag combinations, oldestTimestamp is at most every
stored message timestamp and newestTimestamp is at least every stored message timestamp,
provided every batch obeys the documented input contract: records sorted
ascending-by-time when the isAscendingOrder flag is set and descending otherwise, and no
record carries the reserved sentinel timestamp -1. -/
theorem claim_C2_watermark_bounds (env : Env) (ms : List MergeInput)
    (hc : ∀ m ∈ ms, batchContract m) :
    ∀ p ∈ (applyMerges env ms freshChannelState).data,
      (applyMerges env ms freshChannelState).oldestTimestamp ≤ p.2.time ∧
      p.2.time ≤ (applyMerges env ms freshChannelState).newestTimestamp :=
  (applyMerges_wmInv env ms freshChannelState wmInv_fresh hc).1

/-- C2 witness: the watermark bounds evaluated on the concrete two-merge sequence msW at
the stored message g1. -/
theorem claim_C2_witness :
    (applyMerges envX msW freshChannelState).oldestTimestamp ≤
      ("g1", mkStored envX (parseMsgData envX (rawX "g1" 100))).2.time ∧
    ("g1", mkStored envX (parseMsgData envX (rawX "g1" 100))).2.time ≤
      (applyMerges envX msW freshChannelState).newestTimestamp :=
  claim_C2_watermark_bounds envX msW (by decide) _ (by decide)

/-- C3: for every state reachable from a freshly initialized ChannelState by any sequence
of writeDataToHash merges with any flag combinations, the guids order list has no
duplicates, the messages map keys have no duplicates, and the guids list contains exactly
the keys of the messages map. -/
theorem claim_C3_order_integrity (env : Env) (ms : List MergeInput) :
    (applyMerges env ms freshChannelState).guids.Nodup ∧
    ((applyMerges env ms freshChannelState).data.map Prod.fst).Nodup ∧
    ∀ g, g ∈ (applyMerges env ms freshChannelState).guids ↔
      g ∈ (applyMerges env ms freshChannelState).data.map Prod.fst :=
  applyMerges_orderIntegrity env ms freshChannelState orderIntegrity_fresh

lemma alGet_alSet {α : Type _} (l : List (String × α)) (k k2 : String) (v : α) :
    alGet (alSet l k v) k2 = if k2 = k then some v else alGet l k2 := by
  induction l with
  | nil =>
    by_cases h : k2 = k
    · subst h
      simp [alGet, alSet]
    · simp [alGet, alSet, h, Ne.symm h]
  | cons p l ih =>
    by_cases hp : p.fst = k
    · by_cases h2 : k2 = k
      · subst h2
        simp [alGet, alSet, hp]
      · simp [alGet, alSet, hp, h2, Ne.symm h2]
    · by_cases h2 : k2 = k
      · subst h2
        simp [alGet, alSet, hp, ih]
      · simp [alGet, alSet, hp, h2, ih]

lemma alSet_alSet {α : Type _} (l : List (String × α)) (k : String) (v v2 : α) :
    alSet (alSet l k v) k v2 = alSet l k v2 := by
  induction l with
  | nil => simp [alSet]
  | cons p l ih =>
    by_cases hp : p.fst = k <;> simp [alSet, hp, ih]

lemma resetLocalChannel_preserve (st : ChatState) (c : ChannelDesc) (cid : String)
    (h1 : alGet st.chans cid = some freshChannelState)
    (h2 : alGet st.needsClearing cid = some true) :
    alGet (resetLocalChannel st c).chans cid = some freshChannelState ∧
    alGet (resetLocalChannel st c).needsClearing cid = some true := by
  unfold resetLocalChannel initChannelData
  split_ifs with hl
  · refine ⟨?_, ?_⟩
    · dsimp only
      rw [alGet_alSet]
      split_ifs with he
      · rfl
      · exact h1
    · dsimp only
      rw [alGet_alSet]
      split_ifs with he
      · rfl
      · exact h2
  · exact ⟨h1, h2⟩

lemma foldl_reset_preserve (chs : List ChannelDesc) (st : ChatState) (cid : String)
    (h1 : alGet st.chans cid = some freshChannelState)
    (h2 : alGet st.needsClearing cid = some true) :
    alGet (chs.foldl resetLocalChannel st).chans cid = some freshChannelState ∧
    alGet (chs.foldl resetLocalChannel st).needsClearing cid = some true := by
  induction chs generalizing st with
  | nil => exact ⟨h1, h2⟩
  | cons c chs ih =>
    simp only [List.foldl_cons]
    have hstep := resetLocalChannel_preserve st c cid h1 h2
    exact ih _ hstep.1 hstep.2

lemma foldl_reset_get (chs : List ChannelDesc) (st : ChatState) (e : ChannelDesc)
    (he : e ∈ chs) (hl : e.localBounds = true) :
    alGet (chs.foldl resetLocalChannel st).chans e.id = some freshChannelState ∧
    alGet (chs.foldl resetLocalChannel st).needsClearing e.id = some true := by
  induction chs generalizing st with
  | nil => cases he
  | cons c chs ih =>
    simp only [List.foldl_cons]
    rcases List.mem_cons.mp he with rfl | he2
    · apply foldl_reset_preserve
      · simp [resetLocalChannel, initChannelData, hl, alGet_alSet]
      · simp [resetLocalChannel, initChannelData, hl, alGet_alSet]
    · exact ih _ he2

/-- C4: chat.genPostData builds the timestamp/continuation request parameters from the
channel watermarks: when requesting older messages it sends maxTimestampMs =
oldestTimestamp and the oldest GUID as continuation cursor and never the ascending flag;
otherwise it sends minTimestampMs = newestTimestamp and the newest GUID, with
ascendingTimestampOrder = true exactly when newestTimestamp is a real value (> -1); on a
freshly initialized channel both bounds are -1 and no ascending flag is sent. -/
theorem claim_C4_request_params (b : BBox) (channel : String) (storageHash : ChannelState)
    (getOlderMsgs : Bool) :
    ((buildPostData b channel storageHash getOlderMsgs).maxTimestampMs =
      (if getOlderMsgs then storageHash.oldestTimestamp else -1)) ∧
    ((buildPostData b channel storageHash getOlderMsgs).minTimestampMs =
      (if getOlderMsgs then -1 else storageHash.newestTimestamp)) ∧
    ((buildPostData b channel storageHash getOlderMsgs).plextContinuationGuid =
      (if getOlderMsgs then storageHash.oldestGUID else storageHash.newestGUID)) ∧
    ((buildPostData b channel storageHash getOlderMsgs).ascendingTimestampOrder =
      (if getOlderMsgs = false ∧ storageHash.newestTimestamp > -1 then some true else none)) ∧
    ((buildPostData b channel freshChannelState false).minTimestampMs = -1 ∧
     (buildPostData b channel freshChannelState false).maxTimestampMs = -1 ∧
     (buildPostData b channel freshChannelState false).ascendingTimestampOrder = none) := by
  cases getOlderMsgs <;> simp [buildPostData, freshChannelState] <;> split_ifs <;> simp_all

/-- C5: the viewport change detector of chat.genPostData judges the current box b and
the last-synced box unchanged exactly when each box, padded by the 10% factor, contains
the other; when unchanged nothing is touched, and when changed every localBounds channel
is reset to the fresh state and flagged needsClearing, and the last-synced box becomes
b. -/
theorem claim_C5_viewport_detector (b : BBox) (st : ChatState) (old : BBox)
    (h : st.oldBBox = some old) :
    (((b.padBox CHAT_BOUNDINGBOX_SAME_FACTOR).containsBox old &&
      (old.padBox CHAT_BOUNDINGBOX_SAME_FACTOR).containsBox b) = true →
      viewportSync b st = st) ∧
    (((b.padBox CHAT_BOUNDINGBOX_SAME_FACTOR).containsBox old &&
      (old.padBox CHAT_BOUNDINGBOX_SAME_FACTOR).containsBox b) = false →
      (viewportSync b st).oldBBox = some b ∧
      ∀ e ∈ st.channels, e.localBounds = true →
        alGet (viewportSync b st).chans e.id = some freshChannelState ∧
        alGet (viewportSync b st).needsClearing e.id = some true) := by
  obtain ⟨ob, chs, chansF, nc, rr, frc⟩ := st
  simp only at h
  subst h
  constructor
  · intro hsame
    simp [viewportSync, hsame]
  · intro hchanged
    refine ⟨?_, ?_⟩
    · simp [viewportSync, hchanged]
    · intro e he hl
      have hfold := foldl_reset_get chs
        { oldBBox := some old, channels := chs, chans := chansF, needsClearing := nc,
          requestRunning := rr, failedRequestCount := frc } e he hl
      simpa [viewportSync, hchanged] using hfold

/-- C9: chat.genPostData raises its API-changed Error for every non-string channel
argument, before the viewport state or any channel state is touched: the ambient state
comes back exactly as passed in, alongside the thrown message. -/
theorem claim_C9_nonstring_channel_throws (env : Env) (st : ChatState) (channel : JSVal)
    (getOlderMsgs : Bool) (h : channel.isString = false) :
    genPostData env st channel getOlderMsgs =
      (st, Except.error "API changed: isFaction flag now a channel string - all, faction, alerts") := by
  cases channel <;> simp_all [genPostData, JSVal.isString]

/-- A concrete ambient chat state with the single channel all registered. -/
def chAll : ChannelDesc :=
  { id := "all", name := "All", localBounds := true,
    inputPrompt := some "broadcast:", inputClass := some "public" }

/-- A concrete ambient state for witnesses. -/
def stX : ChatState :=
  { oldBBox := none, channels := [chAll], chans := [("all", freshChannelState)],
    needsClearing := [], requestRunning := [], failedRequestCount := 0 }

/-- C9 witness: passing the JS value null as channel returns the unchanged state and the
API-changed error. -/
theorem claim_C9_witness :
    genPostData envX stX JSVal.null false =
      (stX, Except.error "API changed: isFaction flag now a channel string - all, faction, alerts") :=
  claim_C9_nonstring_channel_throws envX stX JSVal.null false rfl

/-- Two concrete boxes far apart: b shifted beyond the 10% tolerance of old. -/
def boxOld : BBox := { south := 0, west := 0, north := 10, east := 10 }

/-- A box shifted well outside the padded tolerance of boxOld. -/
def boxNew : BBox := { south := 20, west := 20, north := 30, east := 30 }

/-- A concrete state whose last-synced box is boxOld. -/
def stV : ChatState :=
  { oldBBox := some boxOld, channels := [chAll], chans := [("all", sDup)],
    needsClearing := [], requestRunning := [], failedRequestCount := 0 }

/-- C5 witness: the detector theorem applied at the concrete state stV with current box
boxNew. -/
theorem claim_C5_witness :
    (((boxNew.padBox CHAT_BOUNDINGBOX_SAME_FACTOR).containsBox boxOld &&
      (boxOld.padBox CHAT_BOUNDINGBOX_SAME_FACTOR).containsBox boxNew) = true →
      viewportSync boxNew stV = stV) ∧
    (((boxNew.padBox CHAT_BOUNDINGBOX_SAME_FACTOR).containsBox boxOld &&
      (boxOld.padBox CHAT_BOUNDINGBOX_SAME_FACTOR).containsBox boxNew) = false →
      (viewportSync boxNew stV).oldBBox = some boxNew ∧
      ∀ e ∈ stV.channels, e.localBounds = true →
        alGet (viewportSync boxNew stV).chans e.id = some freshChannelState ∧
        alGet (viewportSync boxNew stV).needsClearing e.id = some true) :=
  claim_C5_viewport_detector boxNew stV boxOld rfl

/-- chat.getChannelDesc (chat.js lines 960-967): scan chat.channels for the entry whose
id equals the tab (the forEach assignment makes the last match win). -/
def getChannelDesc (channels : List ChannelDesc) (tab : String) : Option ChannelDesc :=
  channels.foldl (fun acc entry => if entry.id = tab then some entry else acc) none

/-- The tab-validation head of chat.chooseTab (chat.js lines 1066-1070): when no channel
carries the requested id, warn and assume the channel all.  Returns the chosen tab and
whether the warning was logged. -/
def chooseTabSelect (channels : List ChannelDesc) (tab : String) : String × Bool :=
  if channels.all (fun entry => entry.id ≠ tab) then ("all", true) else (tab, false)

/-- chat.chooseTab up to the unguarded channel.inputClass dereference (chat.js lines
1065-1081): validate the tab, then resolve its descriptor; a null descriptor would raise
a TypeError at the channel.inputClass read on line 1081. -/
def chooseTabResolve (channels : List ChannelDesc) (tab : String) :
    Except String (String × Bool × ChannelDesc) :=
  let sel := chooseTabSelect channels tab
  match getChannelDesc channels sel.fst with
  | none => Except.error "TypeError: channel is null"
  | some channel => Except.ok (sel.fst, sel.snd, channel)

lemma getChannelDesc_aux (channels : List ChannelDesc) (tab : String) (acc : Option ChannelDesc)
    (h : acc.isSome = true ∨ ∃ e ∈ channels, e.id = tab) :
    (channels.foldl (fun acc entry => if entry.id = tab then some entry else acc) acc).isSome
      = true := by
  induction channels generalizing acc with
  | nil =>
    rcases h with h | ⟨e, he, _⟩
    · exact h
    · cases he
  | cons c chs ih =>
    simp only [List.foldl_cons]
    apply ih
    by_cases hc : c.id = tab
    · left
      simp [hc]
    · rcases h with h | ⟨e, he, hid⟩
      · left
        simpa [hc] using h
      · rcases List.mem_cons.mp he with rfl | he2
        · exact absurd hid hc
        · right
          exact ⟨e, he2, hid⟩

lemma getChannelDesc_isSome (channels : List ChannelDesc) (tab : String)
    (h : ∃ e ∈ channels, e.id = tab) : (getChannelDesc channels tab).isSome = true :=
  getChannelDesc_aux channels tab none (Or.inr h)

/-- C7: whenever the hardcoded channel all is registered, chat.chooseTab never throws for
any requested tab, and for every tab that names no existing channel it falls back to the
channel all and logs a warning. -/
theorem claim_C7_invalid_channel_fallback (channels : List ChannelDesc) (tab : String)
    (hall : ∃ e ∈ channels, e.id = "all") :
    ((chooseTabResolve channels tab).isOk = true) ∧
    ((channels.all (fun entry => entry.id ≠ tab)) = true →
      ∃ ch, chooseTabResolve channels tab = Except.ok ("all", true, ch)) := by
  have hallSome := getChannelDesc_isSome channels "all" hall
  unfold chooseTabResolve chooseTabSelect
  by_cases hinv : channels.all (fun entry => entry.id ≠ tab) = true
  · rw [if_pos hinv]
    dsimp only
    rcases Option.isSome_iff_exists.mp hallSome with ⟨ch, hch⟩
    rw [hch]
    exact ⟨rfl, fun _ => ⟨ch, rfl⟩⟩
  · rw [if_neg hinv]
    dsimp only
    have hex : ∃ e ∈ channels, e.id = tab := by
      simp only [List.all_eq_true, decide_eq_true_eq, not_forall] at hinv
      rcases hinv with ⟨e, he, hne⟩
      exact ⟨e, he, not_not.mp hne⟩
    rcases Option.isSome_iff_exists.mp (getChannelDesc_isSome channels tab hex) with ⟨ch, hch⟩
    rw [hch]
    exact ⟨rfl, fun hcontra => absurd hcontra hinv⟩

/-- C7 witness: requesting the unknown tab bogus with only the channel all registered
resolves to the channel all with a logged warning and no exception. -/
theorem claim_C7_witness :
    ((chooseTabResolve [chAll] "bogus").isOk = true) ∧
    (([chAll].all (fun entry => entry.id ≠ "bogus")) = true →
      ∃ ch, chooseTabResolve [chAll] "bogus" = Except.ok ("all", true, ch)) :=
  claim_C7_invalid_channel_fallback [chAll] "bogus" ⟨chAll, by decide⟩

/-- chat.renderDivider (chat.js lines 783-785). -/
def renderDivider (text : String) : String :=
  "<tr class=\"divider\"><td><hr></td><td>" ++ text ++ "</td><td><hr></td></tr>"

/-- One iteration of the string-building loop of chat.renderData (chat.js lines 814-822),
carried over an accumulator of the built string and the previous locale date string
(prevTime, initially null).  A guid missing from the data map raises a TypeError; JS
truthiness makes a null or empty-string prevTime skip the divider. -/
def renderRow (env : Env) (data : List (String × StoredMsg))
    (acc : Except String (String × Option String)) (guid : String) :
    Except String (String × Option String) :=
  match acc with
  | .error e => .error e
  | .ok st =>
    match alGet data guid with
    | none => .error "TypeError: msg is undefined"
    | some msg =>
      let nextTime := env.toLocaleDateString msg.time
      let msgs :=
        match st.snd with
        | none => st.fst
        | some prevTime =>
          if prevTime ≠ "" ∧ prevTime ≠ nextTime then st.fst ++ renderDivider nextTime
          else st.fst
      .ok (msgs ++ msg.html, some nextTime)

/-- The render-to-string core of chat.renderData (chat.js lines 811-822): walk the guids
in the supplied order and emit each stored rendered row, inserting a date divider
whenever the locale date string changes between consecutive messages. -/
def renderDataMsgs (env : Env) (data : List (String × StoredMsg)) (vals : List String) :
    Except String String :=
  (vals.foldl (renderRow env data) (.ok ("", none))).map Prod.fst

/-- The display sequence as the spec words it: for each message in order emit its
rendered content, inserting a date-divider before a message exactly when its calendar day
differs from the previous message's day, and never before the first message.  Defined
from the spec for comparison with renderDataMsgs. -/
def renderSpecSeq (dayOf : Int → String) : Option String → List StoredMsg → String
  | _, [] => ""
  | prevDay, m :: rest =>
    let d := dayOf m.time
    (if prevDay.isSome ∧ prevDay ≠ some d then renderDivider d else "") ++ m.html ++
      renderSpecSeq dayOf (some d) rest

/-- The previous-day accumulator value after walking a message list. -/
def lastDay (dayOf : Int → String) : Option String → List StoredMsg → Option String
  | prev, [] => prev
  | _, m :: rest => lastDay dayOf (some (dayOf m.time)) rest

lemma renderRow_foldl_spec (env : Env) (data : List (String × StoredMsg))
    (hday : ∀ t, env.toLocaleDateString t ≠ "") :
    ∀ (vals : List String) (acc : String) (prev : Option String),
      (∀ g ∈ vals, (alGet data g).isSome = true) →
      (∀ s, prev = some s → s ≠ "") →
      vals.foldl (renderRow env data) (.ok (acc, prev)) =
        .ok (acc ++ renderSpecSeq env.toLocaleDateString prev (vals.filterMap (alGet data)),
             lastDay env.toLocaleDateString prev (vals.filterMap (alGet data))) := by
  intro vals
  induction vals with
  | nil =>
    intro acc prev _ _
    simp [renderSpecSeq, lastDay]
  | cons g vals ih =>
    intro acc prev hvals hprev
    rcases Option.isSome_iff_exists.mp (hvals g (List.mem_cons_self g vals)) with ⟨msg, hmsg⟩
    simp only [List.foldl_cons, List.filterMap_cons, hmsg]
    have hstep : renderRow env data (.ok (acc, prev)) g =
        .ok ((acc ++ (if prev.isSome ∧ prev ≠ some (env.toLocaleDateString msg.time)
                      then renderDivider (env.toLocaleDateString msg.time) else "")) ++ msg.html,
             some (env.toLocaleDateString msg.time)) := by
      unfold renderRow
      rw [hmsg]
      dsimp only
      cases prev with
      | none => simp
      | some p =>
        have hp : p ≠ "" := hprev p rfl
        by_cases hne : p = env.toLocaleDateString msg.time
        · simp [hne]
        · simp [hne, hp]
    rw [hstep]
    rw [ih _ _ (fun g2 hg2 => hvals g2 (List.mem_cons_of_mem g hg2))
        (fun s hs => by
          injection hs with hs2
          rw [← hs2]
          exact hday msg.time)]
    simp only [renderSpecSeq, lastDay]
    congr 2
    simp [String.append_assoc]

/-- C8: the renderer emits the stored rendered content of each GUID in exactly the
supplied order, inserting a date divider exactly at calendar-day changes (general
refinement against the spec-worded sequence), and on an order g1(day1) g2(day1) g3(day2)
it emits exactly one divider, between g2 and g3 and none before g1 (concrete scenario). -/
theorem claim_C8_render_order_dividers :
    (∀ (env : Env) (data : List (String × StoredMsg)) (vals : List String),
      (∀ g ∈ vals, (alGet data g).isSome = true) →
      (∀ t, env.toLocaleDateString t ≠ "") →
      renderDataMsgs env data vals =
        .ok (renderSpecSeq env.toLocaleDateString none (vals.filterMap (alGet data)))) ∧
    (∀ (env : Env) (g1 g2 g3 : String) (m1 m2 m3 : StoredMsg),
      g1 ≠ g2 → g1 ≠ g3 → g2 ≠ g3 →
      (∀ t, env.toLocaleDateString t ≠ "") →
      env.toLocaleDateString m1.time = env.toLocaleDateString m2.time →
      env.toLocaleDateString m2.time ≠ env.toLocaleDateString m3.time →
      renderDataMsgs env [(g1, m1), (g2, m2), (g3, m3)] [g1, g2, g3] =
        .ok (m1.html ++ (m2.html ++ (renderDivider (env.toLocaleDateString m3.time) ++ m3.html)))) := by
  have hgen : ∀ (env : Env) (data : List (String × StoredMsg)) (vals : List String),
      (∀ g ∈ vals, (alGet data g).isSome = true) →
      (∀ t, env.toLocaleDateString t ≠ "") →
      renderDataMsgs env data vals =
        .ok (renderSpecSeq env.toLocaleDateString none (vals.filterMap (alGet data))) := by
    intro env data vals hvals hday
    unfold renderDataMsgs
    rw [renderRow_foldl_spec env data hday vals "" none hvals (fun s hs => by cases hs)]
    simp [Except.map]
  refine ⟨hgen, ?_⟩
  intro env g1 g2 g3 m1 m2 m3 h12 h13 h23 hday hd12 hd23
  rw [hgen env [(g1, m1), (g2, m2), (g3, m3)] [g1, g2, g3]
      (by
        intro g hg
        rcases List.mem_cons.mp hg with rfl | hg
        · simp [alGet]
        rcases List.mem_cons.mp hg with rfl | hg
        · simp [alGet, h12]
        rcases List.mem_cons.mp hg with rfl | hg
        · simp [alGet, h13, h23]
        · cases hg)
      hday]
  have e1 : alGet [(g1, m1), (g2, m2), (g3, m3)] g1 = some m1 := by simp [alGet]
  have e2 : alGet [(g1, m1), (g2, m2), (g3, m3)] g2 = some m2 := by
    simp [alGet, h12]
  have e3 : alGet [(g1, m1), (g2, m2), (g3, m3)] g3 = some m3 := by
    simp [alGet, h13, h23]
  simp only [List.filterMap_cons, e1, e2, e3, List.filterMap_nil]
  unfold renderSpecSeq
  simp [hd12, hd23, hday m1.time, String.append_assoc]
  simp [renderSpecSeq, hd23, String.append_assoc]

/-- An environment whose locale date function yields day1 before millisecond 86400000 and
day2 at or after it. -/
def envDay : Env :=
  { teamStringToId := fun _ => 0
    renderMsgRow := fun p => String.append "row:" p.guid
    toLocaleDateString := fun t => if t < 86400000 then "day1" else "day2"
    bounds := { south := 0, west := 0, north := 1, east := 1 }
    isIdle := false }

/-- A stored message with the given rendered html and timestamp. -/
def storedW (html : String) (t : Int) : StoredMsg :=
  { time := t, auto := false, html := html, nick := "n", parsed := parseMsgData envX (rawX "g" t) }

/-- C8 witness: the scenario theorem evaluated at three concrete messages, the first two
on day1 and the third on day2. -/
theorem claim_C8_witness :
    renderDataMsgs envDay
        [("g1", storedW "A" 100), ("g2", storedW "B" 200), ("g3", storedW "C" 86400100)]
        ["g1", "g2", "g3"] =
      .ok ("A" ++ ("B" ++ (renderDivider (envDay.toLocaleDateString (storedW "C" 86400100).time) ++ "C"))) :=
  claim_C8_render_order_dividers.2 envDay "g1" "g2" "g3"
    (storedW "A" 100) (storedW "B" 200) (storedW "C" 86400100)
    (by decide) (by decide) (by decide)
    (by
      intro t
      unfold envDay
      dsimp only
      split_ifs <;> decide)
    (by decide) (by decide)

/-- Address-based view of a markup entity for the mutation analysis of transformMessage:
the tag `ent[0]` together with the heap address of the `ent[1]` payload object. -/
abbrev MarkupRef := String × Nat

/-- Read a payload object from the heap. -/
def heapGet (h : List EntPayload) (addr : Nat) : EntPayload :=
  h.getD addr { plain := "", team := none }

/-- Write a payload object to the heap. -/
def heapSet (h : List EntPayload) (addr : Nat) (v : EntPayload) : List EntPayload :=
  h.set addr v

/-- Read the markup entity at an index (in the source the index is always guarded by a
length check, so the default is never read). -/
def entAt (m : List MarkupRef) (i : Nat) : MarkupRef := m.getD i ("", 0)

/-- First rewrite of transformMessage (chat.js lines 633-638): collapse a FACTION entity
followed by a " Link "/" Control Field @" TEXT entity by writing the faction team onto
the TEXT payload object (an in-place object mutation) and splicing the FACTION entity
out of the array. -/
def collapseFactionText (hm : List EntPayload × List MarkupRef) :
    List EntPayload × List MarkupRef :=
  if hm.snd.length > 4 then
    if (entAt hm.snd 3).fst = "FACTION" ∧ (entAt hm.snd 4).fst = "TEXT" ∧
        ((heapGet hm.fst (entAt hm.snd 4).snd).plain = " Link " ∨
         (heapGet hm.fst (entAt hm.snd 4).snd).plain = " Control Field @") then
      (heapSet hm.fst (entAt hm.snd 4).snd
        { heapGet hm.fst (entAt hm.snd 4).snd with
            team := (heapGet hm.fst (entAt hm.snd 3).snd).team },
       hm.snd.eraseIdx 3)
    else hm
  else hm

/-- Second rewrite of transformMessage (chat.js lines 641-645): splice off a leading
TEXT "Agent " entity followed by a PLAYER entity. -/
def dropAgentStart (hm : List EntPayload × List MarkupRef) :
    List EntPayload × List MarkupRef :=
  if hm.snd.length > 1 then
    if (entAt hm.snd 0).fst = "TEXT" ∧ (heapGet hm.fst (entAt hm.snd 0).snd).plain = "Agent " ∧
        (entAt hm.snd 1).fst = "PLAYER" then
      (hm.fst, hm.snd.drop 2)
    else hm
  else hm

/-- Third rewrite of transformMessage (chat.js lines 648-652): splice off a leading
FACTION entity, TEXT " agent " entity and PLAYER entity. -/
def dropFactionAgentStart (hm : List EntPayload × List MarkupRef) :
    List EntPayload × List MarkupRef :=
  if hm.snd.length > 2 then
    if (entAt hm.snd 0).fst = "FACTION" ∧ (entAt hm.snd 1).fst = "TEXT" ∧
        (heapGet hm.fst (entAt hm.snd 1).snd).plain = " agent " ∧
        (entAt hm.snd 2).fst = "PLAYER" then
      (hm.fst, hm.snd.drop 3)
    else hm
  else hm

/-- chat.transformMessage (chat.js lines 628-655) over an explicit payload heap, making
the JSON deep copy and the in-place payload mutations observable: the
JSON.parse(JSON.stringify(markup)) round trip allocates one fresh payload object per
entity (copying its contents) and builds a new array of references to the copies; the
three rewrites then act on the copy only.  Returns the final heap together with the new
markup array. -/
def transformMessageH (h : List EntPayload) (markup : List MarkupRef) :
    List EntPayload × List MarkupRef :=
  let newMarkup := markup.enum.map (fun p => (p.snd.fst, h.length + p.fst))
  let h1 := h ++ markup.map (fun r => heapGet h r.snd)
  dropFactionAgentStart (dropAgentStart (collapseFactionText (h1, newMarkup)))

lemma entAt_mem (m : List MarkupRef) (i : Nat) (h : i < m.length) : entAt m i ∈ m := by
  unfold entAt
  rw [List.getD_eq_getElem m ("", 0) h]
  exact List.getElem_mem h

lemma collapseFactionText_frame (hm : List EntPayload × List MarkupRef) :
    (∀ i : Nat, (∀ e ∈ hm.snd, e.snd ≠ i) → (collapseFactionText hm).fst[i]? = hm.fst[i]?) ∧
    (∀ e ∈ (collapseFactionText hm).snd, e ∈ hm.snd) := by
  constructor
  · intro i hi
    unfold collapseFactionText
    split_ifs with hlen hc
    · have hmem : entAt hm.snd 4 ∈ hm.snd := entAt_mem hm.snd 4 (by omega)
      exact List.getElem?_set_ne (hi _ hmem)
    · rfl
    · rfl
  · intro e he
    unfold collapseFactionText at he
    split_ifs at he with hlen hc
    · exact List.eraseIdx_subset _ _ he
    · exact he
    · exact he

lemma dropAgentStart_frame (hm : List EntPayload × List MarkupRef) :
    (dropAgentStart hm).fst = hm.fst ∧ ∀ e ∈ (dropAgentStart hm).snd, e ∈ hm.snd := by
  constructor
  · unfold dropAgentStart
    split_ifs <;> rfl
  · intro e he
    unfold dropAgentStart at he
    split_ifs at he
    · exact List.drop_subset _ _ he
    · exact he
    · exact he

lemma dropFactionAgentStart_frame (hm : List EntPayload × List MarkupRef) :
    (dropFactionAgentStart hm).fst = hm.fst ∧
    ∀ e ∈ (dropFactionAgentStart hm).snd, e ∈ hm.snd := by
  constructor
  · unfold dropFactionAgentStart
    split_ifs <;> rfl
  · intro e he
    unfold dropFactionAgentStart at he
    split_ifs at he
    · exact List.drop_subset _ _ he
    · exact he
    · exact he

/-- C10: transformMessage is pure with respect to its argument: every payload object of
the original markup (every heap cell below the allocation point) is unchanged by the
call, and the returned array references only freshly allocated copies, in every case
including the FACTION collapse and the two leading-text strips. -/
theorem claim_C10_transformMessage_frame (h : List EntPayload) (markup : List MarkupRef) :
    (∀ i : Nat, i < h.length → (transformMessageH h markup).fst[i]? = h[i]?) ∧
    (∀ e ∈ (transformMessageH h markup).snd, h.length ≤ e.snd) := by
  have hfresh : ∀ e ∈ markup.enum.map (fun p => (p.snd.fst, h.length + p.fst)),
      h.length ≤ e.snd := by
    intro e he
    rcases List.mem_map.mp he with ⟨p, _, rfl⟩
    exact Nat.le_add_right _ _
  have hc := collapseFactionText_frame
    (h ++ markup.map (fun r => heapGet h r.snd), markup.enum.map (fun p => (p.snd.fst, h.length + p.fst)))
  have hd := dropAgentStart_frame
    (collapseFactionText (h ++ markup.map (fun r => heapGet h r.snd),
      markup.enum.map (fun p => (p.snd.fst, h.length + p.fst))))
  have hf := dropFactionAgentStart_frame
    (dropAgentStart (collapseFactionText (h ++ markup.map (fun r => heapGet h r.snd),
      markup.enum.map (fun p => (p.snd.fst, h.length + p.fst)))))
  constructor
  · intro i hi
    show (dropFactionAgentStart _).fst[i]? = _
    rw [hf.1, hd.1]
    rw [hc.1 i (fun e he => Nat.ne_of_gt (Nat.lt_of_lt_of_le hi (hfresh e he)))]
    exact List.getElem?_append_left hi
  · intro e he
    exact hfresh e (hc.2 e (hd.2 e (hf.2 e he)))

/-- A five-payload heap for the witness: the payload objects of the markup of a typical
"Agent X destroyed the Y Link ..." message. -/
def heapW : List EntPayload :=
  [ { plain := "Agent ", team := none },
    { plain := "alice", team := some "RESISTANCE" },
    { plain := " destroyed the ", team := none },
    { plain := "", team := some "ENLIGHTENED" },
    { plain := " Link ", team := none } ]

/-- The markup array referencing heapW, exercising both the FACTION collapse and the
Agent-strip paths of transformMessage. -/
def markupW : List MarkupRef :=
  [("TEXT", 0), ("PLAYER", 1), ("TEXT", 2), ("FACTION", 3), ("TEXT", 4)]

/-- C10 witness: the frame theorem evaluated on the concrete heap/markup, at original
address 3 (the FACTION payload, whose team was copied onto the TEXT payload copy) and at
the surviving TEXT entity of the result. -/
theorem claim_C10_witness :
    (transformMessageH heapW markupW).fst[3]? = heapW[3]? ∧
    heapW.length ≤ ("TEXT", 7).snd :=
  ⟨(claim_C10_transformMessage_frame heapW markupW).1 3 (by decide),
   (claim_C10_transformMessage_frame heapW markupW).2 ("TEXT", 7) (by decide)⟩

/-- A server response as delivered to the success callback: the data object with an
optional result array (a missing result models a malformed response); the whole value is
none when the callback receives a falsy data argument. -/
structure RespData where
  result : Option (List RawMsg)
deriving DecidableEq

/-- chat.handleChannel (chat.js lines 153-182): clear the in-flight flag; count and skip
malformed responses (window.failedRequestCount++); short-circuit when the response is
empty and the container needs no clearing; otherwise clear the needsClearing flag and
merge into the channel store.  The source calls writeDataToHash with five arguments
(line 170) though the function takes four, so the merge receives isOlderMsgs = false and
isAscendingOrder = olderMsgs and the trailing ascendingTimestampOrder argument is
discarded; the embedding reproduces that call.  The hook invocations and renderChannel
touch no modelled state.  The Option String result is the TypeError raised when the
channel has no store. -/
def handleChannel (env : Env) (st : ChatState) (channel : String) (data : Option RespData)
    (olderMsgs : Bool) (_ascendingTimestampOrder : Bool) : ChatState × Option String :=
  let st := { st with requestRunning := alSet st.requestRunning channel false }
  match data with
  | none => ({ st with failedRequestCount := st.failedRequestCount + 1 }, none)
  | some d =>
    match d.result with
    | none => ({ st with failedRequestCount := st.failedRequestCount + 1 }, none)
    | some result =>
      if result.isEmpty && !((alGet st.needsClearing channel).getD false) then (st, none)
      else
        let st := { st with needsClearing := alSet st.needsClearing channel false }
        match alGet st.chans channel with
        | none => (st, some "TypeError: cannot read properties of undefined")
        | some storageHash =>
          let merged := writeDataToHash env { result := result } storageHash false olderMsgs
          ({ st with chans := alSet st.chans channel merged }, none)

/-- Outcome of one postAjax transport attempt: the success callback invoked with the
response data, or the error callback invoked (transport failure). -/
inductive NetResult where
  | ok (resp : Option RespData)
  | fail
deriving DecidableEq

/-- Result of a requestChannel call: the final ambient state, the request parameter
objects handed to postAjax in order, the transport-failure log entries, and the uncaught
exception if one escaped. -/
structure ReqOutcome where
  state : ChatState
  sent : List PostData
  logs : List String
  err : Option String
deriving DecidableEq

/-- The behavior of chat.requestChannel when re-entered as a retry (isRetry = true, as
invoked by the error callback on chat.js line 149): the in-flight guard passes because
isRetry is set, and the rest of the body is identical to a fresh call except that the
failure path only clears the in-flight flag (line 148).  The recursion of the source is
unrolled into this one re-entry, which is exact because a retry's own failure never
re-issues; requestChannel_retry_eq proves the unrolling consistent. -/
def requestChannelRetry (env : Env) (st : ChatState) (channel : String)
    (getOlderMsgs : Bool) (outcomes : List NetResult) : ReqOutcome :=
  if env.isIdle then
    { state := st, sent := [], logs := [], err := none }
  else
    let st1 := { st with requestRunning := alSet st.requestRunning channel true }
    let g := genPostData env st1 (JSVal.str channel) getOlderMsgs
    match g.snd with
    | Except.error e => { state := g.fst, sent := [], logs := [], err := some e }
    | Except.ok d =>
      match outcomes with
      | [] => { state := g.fst, sent := [d], logs := [], err := none }
      | NetResult.ok resp :: _ =>
        let h := handleChannel env g.fst channel resp getOlderMsgs
          (d.ascendingTimestampOrder == some true)
        { state := h.fst, sent := [d], logs := [], err := h.snd }
      | NetResult.fail :: _ =>
        { state := { g.fst with requestRunning := alSet g.fst.requestRunning channel false },
          sent := [d], logs := ["request failed"], err := none }

/-- chat.requestChannel (chat.js lines 136-151): no-op when a request for this channel is
in flight and the call is not a retry; no-op when the client is idle (only the status
display is refreshed); otherwise mark the channel in flight, build the post data (an
exception from genPostData escapes, leaving the flag set), and hand the request to the
external postAjax.  The outcomes list supplies each successive transport attempt's fate
(an empty list models a still-pending request).  On success the response goes to
handleChannel with the sent ascending flag; on transport failure a first failure
re-enters requestChannel marked as a retry (unrolled into requestChannelRetry, which
requestChannel_retry_eq proves equivalent), and a failed retry just clears the in-flight
flag.  Modelled from the spec: the external postAjax transport records each transport
failure ("request failed") for the status display; that reporting lives outside src in
the requests module. -/
def requestChannel (env : Env) (st : ChatState) (channel : String)
    (getOlderMsgs isRetry : Bool) (outcomes : List NetResult) : ReqOutcome :=
  if (alGet st.requestRunning channel).getD false && !isRetry then
    { state := st, sent := [], logs := [], err := none }
  else if env.isIdle then
    { state := st, sent := [], logs := [], err := none }
  else
    let st1 := { st with requestRunning := alSet st.requestRunning channel true }
    let g := genPostData env st1 (JSVal.str channel) getOlderMsgs
    match g.snd with
    | Except.error e => { state := g.fst, sent := [], logs := [], err := some e }
    | Except.ok d =>
      match outcomes with
      | [] => { state := g.fst, sent := [d], logs := [], err := none }
      | NetResult.ok resp :: _ =>
        let h := handleChannel env g.fst channel resp getOlderMsgs
          (d.ascendingTimestampOrder == some true)
        { state := h.fst, sent := [d], logs := [], err := h.snd }
      | NetResult.fail :: rest =>
        if isRetry then
          { state := { g.fst with requestRunning := alSet g.fst.requestRunning channel false },
            sent := [d], logs := ["request failed"], err := none }
        else
          let r := requestChannelRetry env g.fst channel getOlderMsgs rest
          { state := r.state, sent := d :: r.sent, logs := "request failed" :: r.logs,
            err := r.err }

/-- The unrolling of the retry re-entry is exact: a call with isRetry set behaves as
requestChannelRetry. -/
lemma requestChannel_retry_eq (env : Env) (st : ChatState) (channel : String)
    (getOlderMsgs : Bool) (outcomes : List NetResult) :
    requestChannel env st channel getOlderMsgs true outcomes =
      requestChannelRetry env st channel getOlderMsgs outcomes := by
  unfold requestChannel requestChannelRetry
  simp only [Bool.not_true, Bool.and_false, Bool.false_eq_true, if_false]
  split_ifs with hidle
  · rfl
  · rcases hg : (genPostData env { st with requestRunning := alSet st.requestRunning channel true } (JSVal.str channel) getOlderMsgs).snd with e | d
    · rfl
    · rcases outcomes with _ | ⟨o, rest⟩
      · rfl
      · rcases o with resp | _
        · rfl
        · rfl

lemma padBox_contains_self (b : BBox) :
    (b.padBox CHAT_BOUNDINGBOX_SAME_FACTOR).containsBox b = true := by
  unfold BBox.padBox BBox.containsBox CHAT_BOUNDINGBOX_SAME_FACTOR
  have h1 : (0 : Rat) ≤ |b.south - b.north| * (1 / 10) :=
    mul_nonneg (abs_nonneg _) (by norm_num)
  have h2 : (0 : Rat) ≤ |b.west - b.east| * (1 / 10) :=
    mul_nonneg (abs_nonneg _) (by norm_num)
  simp only [Bool.and_eq_true, decide_eq_true_eq, ge_iff_le]
  refine ⟨⟨⟨?_, ?_⟩, ?_⟩, ?_⟩ <;> dsimp only <;> linarith

lemma resetLocalChannel_rr (st : ChatState) (e : ChannelDesc) :
    (resetLocalChannel st e).requestRunning = st.requestRunning := by
  unfold resetLocalChannel initChannelData
  split_ifs <;> rfl

lemma foldl_reset_rr (chs : List ChannelDesc) (st : ChatState) :
    (chs.foldl resetLocalChannel st).requestRunning = st.requestRunning := by
  induction chs generalizing st with
  | nil => rfl
  | cons c chs ih =>
    simp only [List.foldl_cons]
    rw [ih, resetLocalChannel_rr]

lemma viewportSync_rr (b : BBox) (st : ChatState) :
    (viewportSync b st).requestRunning = st.requestRunning := by
  rcases hob : st.oldBBox with _ | old <;>
    simp [viewportSync, hob, apply_ite ChatState.requestRunning, foldl_reset_rr]

lemma resetLocalChannel_chans_isSome (st : ChatState) (e : ChannelDesc) (c : String)
    (h : (alGet st.chans c).isSome = true) :
    (alGet (resetLocalChannel st e).chans c).isSome = true := by
  unfold resetLocalChannel initChannelData
  split_ifs with hl
  · dsimp only
    rw [alGet_alSet]
    split_ifs with he
    · rfl
    · exact h
  · exact h

lemma foldl_reset_chans_isSome (chs : List ChannelDesc) (st : ChatState) (c : String)
    (h : (alGet st.chans c).isSome = true) :
    (alGet (chs.foldl resetLocalChannel st).chans c).isSome = true := by
  induction chs generalizing st with
  | nil => exact h
  | cons e chs ih =>
    simp only [List.foldl_cons]
    exact ih _ (resetLocalChannel_chans_isSome st e c h)

lemma viewportSync_chans_isSome (b : BBox) (st : ChatState) (c : String)
    (h : (alGet st.chans c).isSome = true) :
    (alGet (viewportSync b st).chans c).isSome = true := by
  rcases hob : st.oldBBox with _ | old
  all_goals
    simp only [viewportSync, hob]
    split <;> (try split) <;>
      first
        | exact h
        | exact foldl_reset_chans_isSome _ _ _ h

lemma viewportSync_idem (b : BBox) (st : ChatState) :
    viewportSync b (viewportSync b st) = viewportSync b st := by
  have hself := padBox_contains_self b
  rcases hob : st.oldBBox with _ | old
  · have h1 : viewportSync b st = { st with oldBBox := some b } := by
      simp [viewportSync, hob, hself]
    rw [h1]
    simp [viewportSync, hself]
  · by_cases hsame : ((b.padBox CHAT_BOUNDINGBOX_SAME_FACTOR).containsBox old &&
        (old.padBox CHAT_BOUNDINGBOX_SAME_FACTOR).containsBox b) = true
    · have h1 : viewportSync b st = st := by
        simp [viewportSync, hob, hsame]
      rw [h1, h1]
    · have hsame2 : ((b.padBox CHAT_BOUNDINGBOX_SAME_FACTOR).containsBox old &&
          (old.padBox CHAT_BOUNDINGBOX_SAME_FACTOR).containsBox b) = false :=
        (Bool.not_eq_true _).mp hsame
      have h1 : viewportSync b st =
          { st.channels.foldl resetLocalChannel st with oldBBox := some b } := by
        simp [viewportSync, hob, hsame2]
      rw [h1]
      simp [viewportSync, hself]

/-- C6: a failed channel request is retried exactly once.  requestChannel is a no-op when
a request for the channel is in flight and the call is not a retry; on transport failure
of a non-retry request it immediately re-issues the identical request marked as a retry;
on failure of the retry it clears the in-flight flag, a failure log entry is recorded,
no further request is issued regardless of any later outcomes, and no exception reaches
the caller. -/
theorem claim_C6_single_retry (env : Env) (st : ChatState) (channel : String)
    (getOlderMsgs : Bool) (rest : List NetResult)
    (hidle : env.isIdle = false)
    (hreg : (alGet st.chans channel).isSome = true)
    (hrun : (alGet st.requestRunning channel).getD false = false) :
    (∀ (st0 : ChatState) (outs : List NetResult),
      (alGet st0.requestRunning channel).getD false = true →
      requestChannel env st0 channel getOlderMsgs false outs =
        { state := st0, sent := [], logs := [], err := none }) ∧
    (∃ d, (requestChannel env st channel getOlderMsgs false
        (NetResult.fail :: NetResult.fail :: rest)).sent = [d, d]) ∧
    ((alGet (requestChannel env st channel getOlderMsgs false
        (NetResult.fail :: NetResult.fail :: rest)).state.requestRunning channel).getD false
      = false) ∧
    ((requestChannel env st channel getOlderMsgs false
        (NetResult.fail :: NetResult.fail :: rest)).err = none) ∧
    ((requestChannel env st channel getOlderMsgs false
        (NetResult.fail :: NetResult.fail :: rest)).logs ≠ []) ∧
    (requestChannel env st channel getOlderMsgs false
        (NetResult.fail :: NetResult.fail :: rest) =
      requestChannel env st channel getOlderMsgs false [NetResult.fail, NetResult.fail]) := by
  set st1 := { st with requestRunning := alSet st.requestRunning channel true } with hst1
  set st2 := viewportSync env.bounds st1 with hst2
  have hregs : (alGet st2.chans channel).isSome = true := by
    rw [hst2]
    exact viewportSync_chans_isSome env.bounds st1 channel hreg
  rcases Option.isSome_iff_exists.mp hregs with ⟨sh, hsh⟩
  have hgen1 : genPostData env st1 (JSVal.str channel) getOlderMsgs =
      (st2, Except.ok (buildPostData env.bounds channel sh getOlderMsgs)) := by
    simp only [genPostData]
    rw [← hst2, hsh]
  have hrr2 : st2.requestRunning = alSet st.requestRunning channel true := by
    rw [hst2]
    exact viewportSync_rr env.bounds st1
  have hst3 : { st2 with requestRunning := alSet st2.requestRunning channel true } = st2 := by
    rw [hrr2, alSet_alSet, ← hrr2]
  have hgen2 : genPostData env st2 (JSVal.str channel) getOlderMsgs =
      (st2, Except.ok (buildPostData env.bounds channel sh getOlderMsgs)) := by
    simp only [genPostData]
    have hvs : viewportSync env.bounds st2 = st2 := by
      rw [hst2]
      exact viewportSync_idem env.bounds st1
    rw [hvs, hsh]
  have hretry : ∀ (outs2 : List NetResult),
      requestChannelRetry env st2 channel getOlderMsgs (NetResult.fail :: outs2) =
      { state := { st2 with requestRunning := alSet st2.requestRunning channel false },
        sent := [buildPostData env.bounds channel sh getOlderMsgs],
        logs := ["request failed"], err := none } := by
    intro outs2
    unfold requestChannelRetry
    simp only [hidle, Bool.false_eq_true, if_false, hst3, hgen2]
  have hfirst : ∀ (outs2 : List NetResult),
      requestChannel env st channel getOlderMsgs false
        (NetResult.fail :: NetResult.fail :: outs2) =
      { state := { st2 with requestRunning := alSet st2.requestRunning channel false },
        sent := [buildPostData env.bounds channel sh getOlderMsgs,
                 buildPostData env.bounds channel sh getOlderMsgs],
        logs := ["request failed", "request failed"], err := none } := by
    intro outs2
    unfold requestChannel
    simp only [hrun, Bool.not_false, Bool.false_and, Bool.false_eq_true, if_false,
      hidle, ← hst1, hgen1, hretry outs2]
  refine ⟨?_, ?_, ?_, ?_, ?_, ?_⟩
  · intro st0 outs hrun0
    simp [requestChannel, hrun0]
  · exact ⟨buildPostData env.bounds channel sh getOlderMsgs, by rw [hfirst rest]⟩
  · rw [hfirst rest]
    simp [alGet_alSet]
  · rw [hfirst rest]
  · rw [hfirst rest]
    simp
  · rw [hfirst rest, hfirst []]


/-- A concrete state like stX but with a request for the channel all already in flight. -/
def stRun : ChatState :=
  { oldBBox := none, channels := [chAll], chans := [("all", freshChannelState)],
    needsClearing := [], requestRunning := [("all", true)], failedRequestCount := 0 }

/-- C6 witness: the retry theorem evaluated at the concrete state stX: an in-flight
non-retry call leaves the state alone, and a double transport failure ends with the
in-flight flag cleared, no exception, and exactly two issued requests. -/
theorem claim_C6_witness :
    ((requestChannel envX stRun "all" false false []).state = stRun) ∧
    ((alGet (requestChannel envX stX "all" false false
        [NetResult.fail, NetResult.fail]).state.requestRunning "all").getD false = false) ∧
    ((requestChannel envX stX "all" false false [NetResult.fail, NetResult.fail]).err = none) ∧
    ((requestChannel envX stX "all" false false [NetResult.fail, NetResult.fail]).sent.length
      = 2) := by
  have h := claim_C6_single_retry envX stX "all" false [] rfl (by decide) (by decide)
  refine ⟨?_, h.2.2.1, h.2.2.2.1, ?_⟩
  · rw [h.1 stRun [] (by decide)]
  · rcases h.2.1 with ⟨d, hd⟩
    rw [hd]
    rfl


end IitcChat
